import Mathlib

set_option maxRecDepth 8000

/-!
Shallow embedding of `multiqc/modules/fastqc/fastqc.py` (the FastQC MultiQC
module), covering `parse_fastqc_report` (lines 165-292), its helper
`avg_bp_from_range` (lines 602-611), and the per-sample collection state
(`self.fastqc_data` / `self.fastqc_stats`, lines 39-40).

Modelling conventions:
- Python runtime exceptions (ValueError, NameError, IndexError) are modelled
  with `Except PyErr`; a raised exception aborts `parse_fastqc_report` and
  leaves the collection untouched.
- Python floats are modelled as exact rationals (`ℚ`); every numeric literal
  the parser meets in the claims is a short decimal string, exactly
  representable.
- The specific regular expressions of the source are modelled by dedicated
  search functions faithful to `re.search` (leftmost match, greedy character
  classes; for these patterns the greedy runs are forced, since each class is
  disjoint from the whitespace that must follow it).
- `self.clean_s_name` lives outside this file's source; it is passed in as an
  opaque function argument `clean`.
- Obvious transcription typos that make the Python file unrunnable as a whole
  (the missing comma in the `section_headings` dict literal, `defaultDict` /
  `DefaultDict` for `collections.defaultdict`, `groups.enumerate()` for
  `enumerate(groups)`, and the bare call `avg_bp_from_range(...)` for
  `self.avg_bp_from_range(...)`) are repaired as evidently intended; genuine
  behavioural slips in the lines the claims cite (the unbound `avg_len` in
  `avg_bp_from_range`, `float()` applied to the pass/warn/fail token, the
  discarded result of `l.replace('NaN','0')`, and the unguarded
  `split()`/`float()` handlers) are kept exactly as the source has them.
-/

/-- Python runtime exceptions raised by the modelled code paths. -/
inductive PyErr where
  | valueError (s : String)
  | nameError (s : String)
  | indexError
deriving DecidableEq

instance {ε α : Type} [DecidableEq ε] [DecidableEq α] : DecidableEq (Except ε α) :=
  fun x y =>
    match x, y with
    | .ok a, .ok b =>
      if h : a = b then .isTrue (by rw [h]) else .isFalse (by intro hc; cases hc; exact h rfl)
    | .error e, .error f =>
      if h : e = f then .isTrue (by rw [h]) else .isFalse (by intro hc; cases hc; exact h rfl)
    | .ok _, .error _ => .isFalse (by intro hc; cases hc)
    | .error _, .ok _ => .isFalse (by intro hc; cases hc)

/-- The character class `\s` of Python's `re` (ASCII whitespace). -/
def isWs (c : Char) : Bool :=
  c = ' ' || c = '\t' || c = '\n' || c = '\r' || c = '\x0b' || c = '\x0c'

/-- Maximal run of characters satisfying `p`, and the remainder. -/
def takeRun (p : Char → Bool) : List Char → List Char × List Char
  | [] => ([], [])
  | c :: cs =>
    if p c then
      let r := takeRun p cs
      (c :: r.1, r.2)
    else ([], c :: cs)

/-- Value of a list of decimal digit characters. -/
def digitsToNat (ds : List Char) : Nat :=
  ds.foldl (fun n c => 10 * n + (c.toNat - 48)) 0

/-- Rational arithmetic written through `mkRat`, because the ambient
`Rat.add`/`Rat.mul`/`Rat.inv`/`Rat.sub` are irreducible and the kernel cannot
evaluate them in `decide` proofs.  The bridge theorems right below prove these
are exactly the field operations of `ℚ`, so the embedding's float arithmetic
is genuine rational arithmetic. -/
def qOfNat (n : Nat) : ℚ := mkRat (Int.ofNat n) 1

/-- Integer embedded as a rational (see `qOfNat`). -/
def qOfInt (n : Int) : ℚ := mkRat n 1

/-- Negation on `ℚ` (see `qOfNat`). -/
def qNeg (a : ℚ) : ℚ := mkRat (-(a.num)) a.den

/-- Addition on `ℚ` (see `qOfNat`). -/
def qAdd (a b : ℚ) : ℚ :=
  mkRat (a.num * (b.den : Int) + b.num * (a.den : Int)) (a.den * b.den)

/-- Multiplication on `ℚ` (see `qOfNat`). -/
def qMul (a b : ℚ) : ℚ := mkRat (a.num * b.num) (a.den * b.den)

/-- Subtraction on `ℚ` (see `qOfNat`). -/
def qSub (a b : ℚ) : ℚ := qAdd a (qNeg b)

/-- Division on `ℚ` (see `qOfNat`); division by zero gives zero, and is never
reached by the embedded code (the only division, the average-length one, is
guarded by a positivity test). -/
def qDiv (a b : ℚ) : ℚ :=
  if b.num < 0 then mkRat (-(a.num * (b.den : Int))) (a.den * b.num.natAbs)
  else mkRat (a.num * (b.den : Int)) (a.den * b.num.natAbs)

theorem qOfNat_eq (n : Nat) : qOfNat n = (n : ℚ) := by
  rw [qOfNat, Rat.mkRat_eq_div] ; simp

theorem qOfInt_eq (n : Int) : qOfInt n = (n : ℚ) := by
  rw [qOfInt, Rat.mkRat_eq_div] ; simp

theorem qNeg_eq_neg (a : ℚ) : qNeg a = -a := by
  rw [qNeg, Rat.mkRat_eq_div]
  push_cast
  rw [neg_div, Rat.num_div_den]

theorem qAdd_eq_add (a b : ℚ) : qAdd a b = a + b := by
  rw [qAdd, Rat.mkRat_eq_div]
  have ha : ((a.den : ℚ)) ≠ 0 := by exact_mod_cast a.den_ne_zero
  have hb : ((b.den : ℚ)) ≠ 0 := by exact_mod_cast b.den_ne_zero
  push_cast
  conv_rhs => rw [← Rat.num_div_den a, ← Rat.num_div_den b]
  field_simp

theorem qMul_eq_mul (a b : ℚ) : qMul a b = a * b := by
  rw [qMul, Rat.mkRat_eq_div]
  have ha : ((a.den : ℚ)) ≠ 0 := by exact_mod_cast a.den_ne_zero
  have hb : ((b.den : ℚ)) ≠ 0 := by exact_mod_cast b.den_ne_zero
  push_cast
  conv_rhs => rw [← Rat.num_div_den a, ← Rat.num_div_den b]
  rw [div_mul_div_comm]

theorem qSub_eq_sub (a b : ℚ) : qSub a b = a - b := by
  rw [qSub, qAdd_eq_add, qNeg_eq_neg, sub_eq_add_neg]

theorem qDiv_eq_div (a b : ℚ) : qDiv a b = a / b := by
  rcases eq_or_ne b 0 with rfl | hb0
  · simp [qDiv, mkRat]
  · have hbn : b.num ≠ 0 := fun h => hb0 (by rwa [← Rat.num_eq_zero])
    have ha : ((a.den : ℚ)) ≠ 0 := by exact_mod_cast a.den_ne_zero
    have hd : ((b.den : ℚ)) ≠ 0 := by exact_mod_cast b.den_ne_zero
    have hn : ((b.num : ℚ)) ≠ 0 := by exact_mod_cast hbn
    by_cases h : b.num < 0
    · rw [qDiv, if_pos h, Rat.mkRat_eq_div]
      push_cast [Int.cast_natAbs]
      rw [abs_of_neg (show ((b.num : ℚ)) < 0 by exact_mod_cast h)]
      conv_rhs => rw [← Rat.num_div_den a, ← Rat.num_div_den b]
      field_simp
    · rw [qDiv, if_neg h, Rat.mkRat_eq_div]
      push_cast [Int.cast_natAbs]
      rw [abs_of_nonneg (show (0 : ℚ) ≤ (b.num : ℚ) by exact_mod_cast not_lt.mp h)]
      conv_rhs => rw [← Rat.num_div_den a, ← Rat.num_div_den b]
      field_simp

/-- Powers of ten as rationals, by plain recursion so that the kernel can
evaluate them. -/
def pow10 : Nat → ℚ
  | 0 => qOfNat 1
  | n + 1 => qMul (qOfNat 10) (pow10 n)

/-- Strip leading and trailing `\s` characters. -/
def trimWs (cs : List Char) : List Char :=
  ((cs.dropWhile isWs).reverse.dropWhile isWs).reverse

/-- Leading sign of a Python numeric literal: `(negative?, rest)`. -/
def parseSign : List Char → Bool × List Char
  | '+' :: t => (false, t)
  | '-' :: t => (true, t)
  | cs => (false, cs)

/-- Model of Python `float(str)` on numeric literals: optional sign, decimal
digits with optional fraction, optional exponent; surrounding whitespace is
stripped; anything else raises `ValueError`.  (CPython additionally accepts
`inf`/`nan` spellings, which have no rational value; they are mapped to
`ValueError` here and are never fed to `float()` in any claim.) -/
def pyFloat (str : String) : Except PyErr ℚ :=
  let cs0 := trimWs str.data
  let sg := parseSign cs0
  let ipr := takeRun Char.isDigit sg.2
  let fpr : List Char × List Char :=
    match ipr.2 with
    | '.' :: t => takeRun Char.isDigit t
    | _ => ([], ipr.2)
  if ipr.1.isEmpty ∧ fpr.1.isEmpty then .error (.valueError str)
  else
    let mant : ℚ := qDiv (qOfNat (digitsToNat (ipr.1 ++ fpr.1))) (pow10 fpr.1.length)
    let q : ℚ := if sg.1 then qNeg mant else mant
    match fpr.2 with
    | [] => .ok q
    | e :: t =>
      if e = 'e' ∨ e = 'E' then
        let esg := parseSign t
        let edr := takeRun Char.isDigit esg.2
        if edr.1.isEmpty ∨ ¬ edr.2.isEmpty then .error (.valueError str)
        else if esg.1 then .ok (qDiv q (pow10 (digitsToNat edr.1)))
        else .ok (qMul q (pow10 (digitsToNat edr.1)))
      else .error (.valueError str)

/-- Model of Python `int(str)`: optional sign and decimal digits only. -/
def pyIntStr (str : String) : Except PyErr Int :=
  let cs0 := trimWs str.data
  let sg := parseSign cs0
  let dr := takeRun Char.isDigit sg.2
  if dr.1.isEmpty ∨ ¬ dr.2.isEmpty then .error (.valueError str)
  else if sg.1 then .ok (-(digitsToNat dr.1 : Int))
  else .ok (digitsToNat dr.1 : Int)

/-- Python `s.split(sep)` on a single separator character (keeps empty pieces). -/
def splitOnChar (sep : Char) : List Char → List (List Char)
  | [] => [[]]
  | c :: cs =>
    if c = sep then [] :: splitOnChar sep cs
    else
      match splitOnChar sep cs with
      | [] => [[c]]
      | h :: t => (c :: h) :: t

/-- String wrapper for `splitOnChar`. -/
def splitOnCharS (sep : Char) (s : String) : List String :=
  (splitOnChar sep s.data).map (fun cs => String.mk cs)

/-- Python `s.split()` with no argument: split on whitespace runs, dropping
empty pieces.  `acc` is the current word, reversed. -/
def splitWsAux : List Char → List Char → List (List Char)
  | acc, [] => if acc.isEmpty then [] else [acc.reverse]
  | acc, c :: cs =>
    if isWs c then
      if acc.isEmpty then splitWsAux [] cs else acc.reverse :: splitWsAux [] cs
    else splitWsAux (c :: acc) cs

/-- String wrapper for `splitWsAux` (Python `l.split()`). -/
def splitWsS (s : String) : List String :=
  (splitWsAux [] s.data).map (fun cs => String.mk cs)

/-- Python `s.split(sep, 1)`: the part before the first occurrence of `sep`,
and the remainder when `sep` occurs. -/
def splitOnce (sep : Char) : List Char → List Char × Option (List Char)
  | [] => ([], none)
  | c :: cs =>
    if c = sep then ([], some cs)
    else
      let r := splitOnce sep cs
      (c :: r.1, r.2)

/-- Python `s.split(sep, 1)[0]`. -/
def pySplit1Fst (s : String) (sep : Char) : String :=
  String.mk (splitOnce sep s.data).1

/-- Python `s.replace(pat, rep)` (all non-overlapping occurrences, left to
right).  Structured with a character-count fuel so that it is structurally
recursive; the wrapper supplies fuel equal to the string length, which every
step consumes at least one character of, so the fuel never runs out. -/
def replaceFuel (pat rep : List Char) : Nat → List Char → List Char
  | 0, cs => cs
  | _ + 1, [] => []
  | fuel + 1, c :: cs =>
    if ¬ pat.isEmpty ∧ pat.isPrefixOf (c :: cs) then
      rep ++ replaceFuel pat rep fuel (cs.drop (pat.length - 1))
    else c :: replaceFuel pat rep fuel cs

/-- String wrapper for `replaceFuel`. -/
def pyReplace (s pat rep : String) : String :=
  String.mk (replaceFuel pat.data rep.data s.data.length s.data)

/-- Python `str.splitlines()` boundary splitting (`\n`, `\r`, `\r\n`). -/
def splitNl : List Char → List (List Char)
  | [] => [[]]
  | '\r' :: '\n' :: cs => [] :: splitNl cs
  | '\r' :: cs => [] :: splitNl cs
  | '\n' :: cs => [] :: splitNl cs
  | c :: cs =>
    match splitNl cs with
    | [] => [[c]]
    | h :: t => (c :: h) :: t

/-- Python `str.splitlines()`: no trailing empty piece, `[]` on `""`. -/
def pySplitlines (s : String) : List String :=
  let parts := splitNl s.data
  let parts :=
    match parts.getLast? with
    | some [] => parts.dropLast
    | _ => parts
  parts.map (fun cs => String.mk cs)

/-- Lines 602-611, `avg_bp_from_range`.  Its docstring promises the midpoint
of a range (or the plain integer) but the final statement is
`return(int(avg_len))` with `avg_len` never assigned anywhere in the file, so
every call raises `NameError` (after first raising `ValueError` from
`float()` when a piece of the range is not numeric). -/
def avg_bp_from_range (bp : String) : Except PyErr Int :=
  if ('-' ∈ bp.data) then
    match (splitOnce '-' bp.data).2 with
    | none => .error .indexError
    | some after =>
      match pyFloat (String.mk after) with
      | .error e => .error e
      | .ok maxlen =>
        match pyFloat (String.mk (splitOnce '-' bp.data).1) with
        | .error e => .error e
        | .ok minlen =>
          let _bp : ℚ := ((maxlen - minlen) / 2) + minlen
          .error (.nameError "avg_len")
  else .error (.nameError "avg_len")

/-- `re.search` scan: try the matcher at every start position, leftmost
success wins (on failure at one position the regex engine retries from the
next character, which is exactly this recursion). -/
def scanSearch {α : Type} (f : List Char → Option α) : List Char → Option α
  | [] => f []
  | c :: cs =>
    match f (c :: cs) with
    | some a => some a
    | none => scanSearch f cs

/-- Anchored model of `lit` followed by `\s+(cls+)` at the current position:
the literal, at least one whitespace character, then a non-empty maximal run
of `cls` characters (maximality is forced, since a `cls` character is never
whitespace for the classes used and nothing else follows in the pattern). -/
def matchLitClassAt (lit : List Char) (cls : Char → Bool) (cs : List Char) : Option String :=
  if lit.isPrefixOf cs then
    let rest := cs.drop lit.length
    let w := takeRun isWs rest
    let g := takeRun cls w.2
    if w.1.isEmpty ∨ g.1.isEmpty then none else some (String.mk g.1)
  else none

/-- Model of `re.search(lit + r"\s+(cls+)", l)`, returning group 1. -/
def searchLitClass (lit : String) (cls : Char → Bool) (l : String) : Option String :=
  scanSearch (matchLitClassAt lit.data cls) l.data

/-- Model of `re.search(r"^Filename\s+(.+)$", l)` (line 182), returning group
1.  Anchored at the start; `\s+` is greedy but `.` also matches whitespace,
so when nothing but whitespace follows the literal the engine backtracks and
group 1 becomes the last whitespace character. -/
def matchFilename (cs : List Char) : Option String :=
  if ("Filename".data).isPrefixOf cs then
    let rem := cs.drop 8
    let w := takeRun isWs rem
    if w.1.isEmpty then none
    else if ¬ w.2.isEmpty then some (String.mk w.2)
    else if w.1.length ≥ 2 then some (String.mk [w.1.getLastD ' '])
    else none
  else none

/-- The `\s+(pass|warn|fail)` tail of a section-heading regex, at the current
position. -/
def statusTokenAt (cs : List Char) : Option String :=
  let w := takeRun isWs cs
  if w.1.isEmpty then none
  else if ("pass".data).isPrefixOf w.2 then some "pass"
  else if ("warn".data).isPrefixOf w.2 then some "warn"
  else if ("fail".data).isPrefixOf w.2 then some "fail"
  else none

/-- Model of one section-heading regex (lines 170-180): the literal section
name followed by `\s+(pass|warn|fail)`, searched anywhere in the line. -/
def searchHeader (name : String) (l : String) : Option String :=
  scanSearch
    (fun cs => if (name.data).isPrefixOf cs then statusTokenAt (cs.drop name.length) else none)
    l.data

/-- Anchored model of `(cls1+)` followed by `k` repetitions of `\s+(cls+)`:
returns group 1 and the `k` later groups.  Greedy runs are forced because the
classes contain no whitespace. -/
def matchColsAt (cls : Char → Bool) : Nat → List Char → Option (List String)
  | 0, _ => some []
  | k + 1, cs =>
    let w := takeRun isWs cs
    if w.1.isEmpty then none
    else
      let g := takeRun cls w.2
      if g.1.isEmpty then none
      else
        match matchColsAt cls k g.2 with
        | none => none
        | some gs => some (String.mk g.1 :: gs)

/-- Model of `re.search` for the row patterns of the module handlers:
`(cls1+)` then `k` groups `\s+(cls+)` (lines 213, 227, 236, 241). -/
def searchRow (cls1 cls : Char → Bool) (k : Nat) (l : String) : Option (String × List String) :=
  scanSearch
    (fun cs =>
      let g1 := takeRun cls1 cs
      if g1.1.isEmpty then none
      else
        match matchColsAt cls k g1.2 with
        | none => none
        | some gs => some (String.mk g1.1, gs))
    l.data

/-- The character class `[\d-]`. -/
def isDigDash (c : Char) : Bool := c.isDigit || c = '-'

/-- The character class `[\d\.]`. -/
def isDigDot (c : Char) : Bool := c.isDigit || c = '.'

/-- The character class `[\d\.E]`. -/
def isDigDotE (c : Char) : Bool := c.isDigit || c = '.' || c = 'E'

/-- The character class `[\d]`. -/
def isDigitC (c : Char) : Bool := c.isDigit

example : avg_bp_from_range "5-9" = .error (.nameError "avg_len") := by decide
example : avg_bp_from_range "12" = .error (.nameError "avg_len") := by decide
example : pyFloat "0.1" = .ok (mkRat 1 10) := by decide
example : pyFloat "2.5E2" = .ok (mkRat 250 1) := by decide
example : pyFloat "-3.5" = .ok (mkRat (-7) 2) := by decide
example : pyFloat "1E-2" = .ok (mkRat 1 100) := by decide
example : pyFloat "" = .error (.valueError "") := by decide
example : pyFloat "35-76" = .error (.valueError "35-76") := by decide
example : pyFloat "pass" = .error (.valueError "pass") := by decide
example : pyIntStr "1" = .ok 1 := by decide
example : pySplitlines "a\n\nb\n" = ["a", "", "b"] := by decide
example : pySplitlines "" = [] := by decide
example : splitWsS " a  bc " = ["a", "bc"] := by decide
example : splitOnCharS '\t' "1-5\t0.1\t0.0" = ["1-5", "0.1", "0.0"] := by decide
example : pyReplace "10\t1.0\tNaN\t2.0\t3.0" "NaN" "0" = "10\t1.0\t0\t2.0\t3.0" := by decide
example : searchLitClass "Total Sequences" isDigitC "Total Sequences\t75" = some "75" := by decide
example : searchLitClass "Total Sequences" isDigitC "abc" = none := by decide
example : matchFilename "Filename\tsample1.fastq".data = some "sample1.fastq" := by decide
example : searchHeader ">>Per base sequence quality" ">>Per base sequence quality\tpass" = some "pass" := by decide
example : searchHeader ">>Per base sequence quality" ">>Per base sequence quality" = none := by decide
example : searchRow isDigDash isDigDot 4 "10\t1.0\t0\t2.0\t3.0" = some ("10", ["1.0", "0", "2.0", "3.0"]) := by decide
example : searchRow isDigDash isDigDot 4 "10\t1.0\tNaN\t2.0\t3.0" = none := by decide
example : searchRow isDigDash isDigDotE 1 "10\t100" = some ("10", ["100"]) := by decide

/-- The section tags of the `section_headings` dict (lines 170-180), i.e. the
possible values of the `in_module` variable. -/
inductive FqcModule where
  | sequence_quality
  | per_seq_quality
  | sequence_content
  | gc_content
  | n_content
  | seq_length_dist
  | seq_dup_levels
  | adapter_content
  | kmer_content
deriving DecidableEq

/-- The `section_headings` dict (lines 170-180) in source order, each regex
split into its literal section-name part (the `\s+(pass|warn|fail)` tail is
handled by `searchHeader`). -/
def section_headings : List (FqcModule × String) :=
  [(.sequence_quality, ">>Per base sequence quality"),
   (.per_seq_quality, ">>Per sequence quality scores"),
   (.sequence_content, ">>Per base sequence content"),
   (.gc_content, ">>Per sequence GC content"),
   (.n_content, ">>Per base N content"),
   (.seq_length_dist, ">>Sequence Length Distribution"),
   (.seq_dup_levels, ">>Sequence Duplication Levels"),
   (.adapter_content, ">>Adapter Content"),
   (.kmer_content, ">>Kmer Content")]

/-- First section-heading regex that matches the line, with its status token
(the loop of lines 271-275; the first match assigns `in_module` and then the
`float()` on line 275 raises, so later iterations are unreachable). -/
def headerSearch : List (FqcModule × String) → String → Option (FqcModule × String)
  | [], _ => none
  | (m, name) :: rest, l =>
    match searchHeader name l with
    | some tok => some (m, tok)
    | none => headerSearch rest l

/-- A Python value stored in a data table: the `base` column is kept as the
raw matched string, every other column goes through `float()`. -/
inductive PyVal where
  | pstr (s : String)
  | pnum (q : ℚ)
deriving DecidableEq

/-- Association-list update modelling `dict.__setitem__`: at most one entry
per key results, and only lookup, key multiset and presence are relied on
(Python keeps the overwritten key's position, which no claim observes). -/
def setk {α β : Type} [DecidableEq α] (m : List (α × β)) (a : α) (v : β) : List (α × β) :=
  (m.filter fun p => !(decide (p.1 = a))) ++ [(a, v)]

/-- Association-list lookup modelling `dict.__getitem__` / `in`. -/
def getk {α β : Type} [DecidableEq α] : List (α × β) → α → Option β
  | [], _ => none
  | (k, v) :: t, a => if k = a then some v else getk t a

/-- Number of entries stored under a key. -/
def countKey {α β : Type} [DecidableEq α] (m : List (α × β)) (a : α) : Nat :=
  (m.filter fun p => decide (p.1 = a)).length

/-- Keys of an association list, in order. -/
def keysOf {α β : Type} (m : List (α × β)) : List α := m.map Prod.fst

/-- Two-level defaultdict write: `d[a][b] = v` where a fresh empty inner dict
appears on first use of `a`. -/
def upd2 {α β γ : Type} [DecidableEq α] [DecidableEq β]
    (t : List (α × List (β × γ))) (a : α) (b : β) (v : γ) : List (α × List (β × γ)) :=
  setk t a (setk ((getk t a).getD []) b v)

/-- Two-level lookup. -/
def getk2 {α β γ : Type} [DecidableEq α] [DecidableEq β]
    (t : List (α × List (β × γ))) (a : α) (b : β) : Option γ :=
  match getk t a with
  | some inner => getk inner b
  | none => none

/-- Python `lst[i]`, raising `IndexError` when out of range. -/
def pyIndex {α : Type} (l : List α) (i : Nat) : Except PyErr α :=
  if h : i < l.length then .ok (l.get ⟨i, h⟩) else .error .indexError

/-- The scalar-statistics dict `s` of `parse_fastqc_report` (lines 190-192
initialise it; the keys are fixed, so it is modelled as a structure of
optional fields, with the two accumulators initialised to `0`). -/
structure Stats where
  filename : Option String := none
  total_sequences : Option ℚ := none
  sequence_length : Option ℚ := none
  percent_gc : Option ℚ := none
  percent_duplicates : Option ℚ := none
  seq_len_bp : ℚ := qOfNat 0
  seq_len_read_count : ℚ := qOfNat 0
  avg_sequence_length : Option ℚ := none
deriving DecidableEq

/-- The default scalar dict as initialised on lines 190-192. -/
def defaultStats : Stats := {}

/-- The per-sample data dict `d` of `parse_fastqc_report` (line 189); one
field per table key ever written. -/
structure DataTables where
  sequence_quality : List (Int × List (String × PyVal)) := []
  per_seq_quality : List (ℚ × ℚ) := []
  sequence_content : List (Int × List (String × PyVal)) := []
  gc_content : List (Int × ℚ) := []
  n_content : List (ℚ × ℚ) := []
  seq_length_dist : List (Int × ℚ) := []
  seq_dup_levels : List (String × ℚ) := []
  seq_dup_levels_dedup : List (String × ℚ) := []
  adapter_content : List (String × List (Int × ℚ)) := []
deriving DecidableEq

/-- The empty data dict. -/
def emptyTables : DataTables := {}

/-- One scalar-field regex applied to the line: on a match, the captured
group goes through `float()` (line 204) before being stored. -/
def statField (search : Option String) (set : Stats → ℚ → Stats) (s : Stats) :
    Except PyErr Stats :=
  match search with
  | none => .ok s
  | some g =>
    match pyFloat g with
    | .error e => .error e
    | .ok v => .ok (set s v)

/-- The `stats_regexes` loop (lines 197-204) on one line, in source dict
order; `filename` stores the raw group (line 202), the rest go through
`float()` (line 204). -/
def statsPass (s : Stats) (l : String) : Except PyErr Stats :=
  let s :=
    match matchFilename l.data with
    | some g => {s with filename := some g}
    | none => s
  match statField (searchLitClass "Total Sequences" isDigitC l)
      (fun s v => {s with total_sequences := some v}) s with
  | .error e => .error e
  | .ok s =>
    match statField (searchLitClass "Sequence length" isDigDash l)
        (fun s v => {s with sequence_length := some v}) s with
    | .error e => .error e
    | .ok s =>
      match statField (searchLitClass "%GC" isDigitC l)
          (fun s v => {s with percent_gc := some v}) s with
      | .error e => .error e
      | .ok s =>
        statField (searchLitClass "#Total Deduplicated Percentage" isDigDot l)
          (fun s v => {s with percent_duplicates := some v}) s

/-- Group names of the quality-by-position row after `base` (line 216). -/
def qualColNames : List String :=
  ["mean", "median", "lower_quart", "upper_quart", "10_percentile", "90_percentile"]

/-- Group names of the per-base-composition row after `base` (line 230). -/
def contentColNames : List String := ["G", "A", "T", "C"]

/-- The `for idx, g in enumerate(groups)` store loops of lines 217-219 and
231-233 for the indices after 0: each later group goes through `float()` and
lands in the row dict of bucket `bp`. -/
def storeRow (bp : Int) :
    List (Int × List (String × PyVal)) → List String → List String →
    Except PyErr (List (Int × List (String × PyVal)))
  | tab, [], _ => .ok tab
  | tab, _ :: _, [] => .ok tab
  | tab, name :: names, v :: vs =>
    match pyFloat v with
    | .error e => .error e
    | .ok q => storeRow bp (upd2 tab bp name (.pnum q)) names vs

/-- The two-column handlers of lines 221-223 (`per_seq_quality` and
`n_content`): `sections = l.split()` then
`d[in_module][float(sections[0])] = float(sections[1])`, where Python
evaluates the right-hand side before the target subscript, with no guard
against short or non-numeric lines. -/
def twocolStep (tbl : List (ℚ × ℚ)) (l : String) : Except PyErr (List (ℚ × ℚ)) :=
  let sections := splitWsS l
  match pyIndex sections 1 with
  | .error e => .error e
  | .ok v1 =>
    match pyFloat v1 with
    | .error e => .error e
    | .ok q1 =>
      match pyIndex sections 0 with
      | .error e => .error e
      | .ok v0 =>
        match pyFloat v0 with
        | .error e => .error e
        | .ok q0 => .ok (setk tbl q0 q1)

/-- The `for idx, val in enumerate(cols[1:])` loop of lines 259-261:
`a = adapter_types[idx]` (IndexError when the header line never supplied
enough names) and then `d['adapter_content'][a][pos] = float(val)`. -/
def adapterLoop (adapter_types : List String) (pos : Int) :
    Nat → List (String × List (Int × ℚ)) → List String →
    Except PyErr (List (String × List (Int × ℚ)))
  | _, tab, [] => .ok tab
  | idx, tab, v :: vs =>
    match pyIndex adapter_types idx with
    | .error e => .error e
    | .ok a =>
      match pyFloat v with
      | .error e => .error e
      | .ok q => adapterLoop adapter_types pos (idx + 1) (upd2 tab a pos q) vs

/-- The active-section data-line handlers (lines 212-267), one branch per
`if in_module == ...` test.  Returns the updated `d`, `s` and
`adapter_types`. -/
def moduleStep (m : FqcModule) (d : DataTables) (s : Stats) (adapter_types : List String)
    (l : String) : Except PyErr (DataTables × Stats × List String) :=
  match m with
  | .sequence_quality =>
    match searchRow isDigDash isDigDot 6 l with
    | none => .ok (d, s, adapter_types)
    | some (g1, gs) =>
      match avg_bp_from_range g1 with
      | .error e => .error e
      | .ok bp =>
        match storeRow bp (upd2 d.sequence_quality bp "base" (.pstr g1)) qualColNames gs with
        | .error e => .error e
        | .ok tab => .ok ({d with sequence_quality := tab}, s, adapter_types)
  | .per_seq_quality =>
    match twocolStep d.per_seq_quality l with
    | .error e => .error e
    | .ok tbl => .ok ({d with per_seq_quality := tbl}, s, adapter_types)
  | .sequence_content =>
    let _nrep := pyReplace l "NaN" "0"
    match searchRow isDigDash isDigDot 4 l with
    | none => .ok (d, s, adapter_types)
    | some (g1, gs) =>
      match avg_bp_from_range g1 with
      | .error e => .error e
      | .ok bp =>
        match storeRow bp (upd2 d.sequence_content bp "base" (.pstr g1)) contentColNames gs with
        | .error e => .error e
        | .ok tab => .ok ({d with sequence_content := tab}, s, adapter_types)
  | .gc_content =>
    match searchRow isDigitC isDigDotE 1 l with
    | none => .ok (d, s, adapter_types)
    | some (g1, gs) =>
      match pyFloat (gs.headD "") with
      | .error e => .error e
      | .ok q =>
        match pyIntStr g1 with
        | .error e => .error e
        | .ok n => .ok ({d with gc_content := setk d.gc_content n q}, s, adapter_types)
  | .n_content =>
    match twocolStep d.n_content l with
    | .error e => .error e
    | .ok tbl => .ok ({d with n_content := tbl}, s, adapter_types)
  | .seq_length_dist =>
    match searchRow isDigDash isDigDotE 1 l with
    | none => .ok (d, s, adapter_types)
    | some (g1, gs) =>
      match avg_bp_from_range g1 with
      | .error e => .error e
      | .ok bp =>
        match pyFloat (gs.headD "") with
        | .error e => .error e
        | .ok q =>
          .ok ({d with seq_length_dist := setk d.seq_length_dist bp q},
               {s with seq_len_bp := qAdd s.seq_len_bp (qMul q (qOfInt bp)),
                       seq_len_read_count := qAdd s.seq_len_read_count q},
               adapter_types)
  | .seq_dup_levels =>
    let sections := splitWsS l
    match pyIndex sections 1 with
    | .error e => .error e
    | .ok v1 =>
      match pyFloat v1 with
      | .error e => .error e
      | .ok q1 =>
        match pyIndex sections 0 with
        | .error e => .error e
        | .ok k0 =>
          match pyIndex sections 2 with
          | .error e => .error e
          | .ok v2 =>
            match pyFloat v2 with
            | .error e => .error e
            | .ok q2 =>
              .ok ({d with seq_dup_levels := setk d.seq_dup_levels k0 q1,
                           seq_dup_levels_dedup := setk d.seq_dup_levels_dedup k0 q2},
                   s, adapter_types)
  | .adapter_content =>
    if l.data.take 1 = ['#'] then
      .ok (d, s, (splitOnCharS '\t' (String.mk (l.data.drop 1))).drop 1)
    else
      match splitOnCharS '\t' l with
      | [] => .ok (d, s, adapter_types)
      | c0 :: rest =>
        match pyIntStr (pySplit1Fst c0 '-') with
        | .error e => .error e
        | .ok pos =>
          match adapterLoop adapter_types pos 0 d.adapter_content rest with
          | .error e => .error e
          | .ok tab => .ok ({d with adapter_content := tab}, s, adapter_types)
  | .kmer_content => .ok (d, s, adapter_types)

/-- The loop state of `parse_fastqc_report` (lines 189-194). -/
structure ParseSt where
  d : DataTables
  s : Stats
  adapter_types : List String
  in_module : Option FqcModule
deriving DecidableEq

/-- The loop state right before the first line (lines 189-194). -/
def initParseSt : ParseSt :=
  { d := emptyTables, s := defaultStats, adapter_types := [], in_module := none }

/-- One iteration of the `for l in file_contents.splitlines()` loop
(lines 195-275): the scalar regexes run on every line; with a section active
the line is either the end marker or data for that section's handler; with no
section active the section-heading regexes are tried, and a match assigns
`in_module` (line 274) and then evaluates `float()` on the captured
pass/warn/fail token (line 275, the right-hand side of the `s['statuses']`
store), which raises `ValueError`. -/
def lineStep (st : ParseSt) (l : String) : Except PyErr ParseSt :=
  match statsPass st.s l with
  | .error e => .error e
  | .ok s1 =>
    match st.in_module with
    | some m =>
      if l = ">>END_MODULE" then .ok {st with s := s1, in_module := none}
      else
        match moduleStep m st.d s1 st.adapter_types l with
        | .error e => .error e
        | .ok (d2, s2, at2) =>
          .ok {d := d2, s := s2, adapter_types := at2, in_module := some m}
    | none =>
      match headerSearch section_headings l with
      | some (k, tok) =>
        match pyFloat tok with
        | .error e => .error e
        | .ok _v => .ok {st with s := s1, in_module := some k}
      | none => .ok {st with s := s1}

/-- The whole line loop. -/
def runLines : ParseSt → List String → Except PyErr ParseSt
  | st, [] => .ok st
  | st, l :: ls =>
    match lineStep st l with
    | .error e => .error e
    | .ok st2 => runLines st2 ls

/-- The average-sequence-length post-pass (lines 277-279). -/
def lengthPostPass (s : Stats) : Stats :=
  if Rat.blt (qOfNat 0) s.seq_len_read_count then
    {s with avg_sequence_length := some (qDiv s.seq_len_bp s.seq_len_read_count)}
  else s

/-- Lines 189-283 of `parse_fastqc_report`: run the line loop, compute the
average length, and resolve the sample name (a captured `filename` scalar,
run through `self.clean_s_name`, takes precedence over the caller-supplied
`s_name`). -/
def parseLines (clean : String → String) (file_contents s_name : String) :
    Except PyErr (DataTables × Stats × String) :=
  match runLines initParseSt (pySplitlines file_contents) with
  | .error e => .error e
  | .ok st =>
    let s := lengthPostPass st.s
    match s.filename with
    | some fn => .ok (st.d, s, clean fn)
    | none => .ok (st.d, s, s_name)

/-- The collection state of the module object: `self.fastqc_data` and
`self.fastqc_stats` (lines 39-40), plus the list of messages emitted through
the logger (the duplicate-name diagnostic of line 288). -/
structure ModuleSt where
  fastqc_data : List (String × DataTables)
  fastqc_stats : List (String × Stats)
  logMsgs : List String
deriving DecidableEq

/-- The collection as initialised on lines 39-40. -/
def emptyModuleSt : ModuleSt := ⟨[], [], []⟩

/-- `parse_fastqc_report` (lines 165-292): parse the text, then store the
record — warning first (lines 285-288) when the resolved name is already
present, then overwriting both maps under the resolved name (lines 290-292).
An exception anywhere leaves the collection untouched. -/
def parse_fastqc_report (clean : String → String) (file_contents s_name : String)
    (m : ModuleSt) : Except PyErr ModuleSt :=
  match parseLines clean file_contents s_name with
  | .error e => .error e
  | .ok (d, s, nm) =>
    .ok { fastqc_data := setk m.fastqc_data nm d,
          fastqc_stats := setk m.fastqc_stats nm s,
          logMsgs :=
            if (getk m.fastqc_stats nm).isSome then
              m.logMsgs ++ ["Duplicate sample name found! Overwriting: " ++ nm]
            else m.logMsgs }

example : parse_fastqc_report id "" "sampleA" emptyModuleSt
    = .ok ⟨[("sampleA", emptyTables)], [("sampleA", defaultStats)], []⟩ := by decide
example : parse_fastqc_report id "Total Sequences\t5" "sampleA" emptyModuleSt
    = .ok ⟨[("sampleA", emptyTables)],
           [("sampleA", {defaultStats with total_sequences := some (qOfNat 5)})], []⟩ := by
  decide
example : lineStep initParseSt ">>Per base sequence quality\tpass"
    = .error (.valueError "pass") := by decide
example : moduleStep .seq_length_dist emptyTables defaultStats [] "10\t100"
    = .error (.nameError "avg_len") := by decide
example : moduleStep .sequence_content emptyTables defaultStats [] "10\t1.0\tNaN\t2.0\t3.0"
    = .ok (emptyTables, defaultStats, []) := by decide
example : moduleStep .adapter_content emptyTables defaultStats [] "#Position\tIllumina\tNextera"
    = .ok (emptyTables, defaultStats, ["Illumina", "Nextera"]) := by decide
example : moduleStep .adapter_content emptyTables defaultStats ["Illumina", "Nextera"] "1-5\t0.1\t0.0"
    = .ok ({emptyTables with
              adapter_content := [("Illumina", [(1, mkRat 1 10)]), ("Nextera", [(1, qOfNat 0)])]},
           defaultStats, ["Illumina", "Nextera"]) := by decide

theorem getk_filter_self {α β : Type} [DecidableEq α] (m : List (α × β)) (a : α) :
    getk (m.filter fun p => !(decide (p.1 = a))) a = none := by
  induction m with
  | nil => rfl
  | cons p t ih =>
    obtain ⟨k, w⟩ := p
    by_cases h : k = a <;> simp [List.filter_cons, h, getk, ih]

theorem getk_filter_ne {α β : Type} [DecidableEq α] (m : List (α × β)) (a b : α)
    (h : b ≠ a) : getk (m.filter fun p => !(decide (p.1 = a))) b = getk m b := by
  induction m with
  | nil => rfl
  | cons p t ih =>
    obtain ⟨k, w⟩ := p
    by_cases hk : k = a
    · subst hk
      simp [List.filter_cons, getk, Ne.symm h, ih]
    · by_cases hb : k = b <;> simp [List.filter_cons, hk, hb, getk, ih, h]

theorem getk_append_none {α β : Type} [DecidableEq α] (l1 l2 : List (α × β)) (a : α)
    (h : getk l1 a = none) : getk (l1 ++ l2) a = getk l2 a := by
  induction l1 with
  | nil => rfl
  | cons p t ih =>
    obtain ⟨k, w⟩ := p
    by_cases hk : k = a
    · simp [getk, hk] at h
    · simp [getk, hk] at h ⊢
      exact ih h

theorem getk_setk_self {α β : Type} [DecidableEq α] (m : List (α × β)) (a : α) (v : β) :
    getk (setk m a v) a = some v := by
  rw [setk, getk_append_none _ _ _ (getk_filter_self m a)]
  simp [getk]

theorem getk_append_some {α β : Type} [DecidableEq α] (l1 l2 : List (α × β)) (a : α) (w : β)
    (h : getk l1 a = some w) : getk (l1 ++ l2) a = some w := by
  induction l1 with
  | nil => cases h
  | cons p t ih =>
    obtain ⟨k, w2⟩ := p
    by_cases hk : k = a
    · simpa [getk, hk] using h
    · simp [getk, hk] at h ⊢
      exact ih h

theorem getk_setk_ne {α β : Type} [DecidableEq α] (m : List (α × β)) (a b : α) (v : β)
    (h : b ≠ a) : getk (setk m a v) b = getk m b := by
  rw [setk, ← getk_filter_ne m a b h]
  cases hg : getk (m.filter fun p => !(decide (p.1 = a))) b with
  | none =>
    rw [getk_append_none _ _ _ hg]
    simp [getk, Ne.symm h]
  | some w => rw [getk_append_some _ _ _ _ hg]

theorem getk_setk_isSome {α β : Type} [DecidableEq α] (m : List (α × β)) (a b : α) (v : β)
    (h : (getk m b).isSome = true) : (getk (setk m a v) b).isSome = true := by
  by_cases hb : b = a
  · subst hb; rw [getk_setk_self]; rfl
  · rwa [getk_setk_ne _ _ _ _ hb]

theorem countKey_setk_self {α β : Type} [DecidableEq α] (m : List (α × β)) (a : α) (v : β) :
    countKey (setk m a v) a = 1 := by
  induction m with
  | nil => simp [setk, countKey, List.filter_cons]
  | cons p t ih =>
    obtain ⟨k, w⟩ := p
    by_cases h : k = a
    · simp [setk, countKey, List.filter_cons, h] at ih ⊢
    · simp [setk, countKey, List.filter_cons, h] at ih ⊢

theorem keysOf_filter {α β : Type} [DecidableEq α] (m : List (α × β)) (a : α) :
    keysOf (m.filter fun p => !(decide (p.1 = a)))
      = (keysOf m).filter (fun k => !(decide (k = a))) := by
  induction m with
  | nil => rfl
  | cons p t ih =>
    obtain ⟨k, w⟩ := p
    by_cases h : k = a <;> simp [keysOf, List.filter_cons, h] at ih ⊢ <;> exact ih

theorem keysOf_setk {α β : Type} [DecidableEq α] (m : List (α × β)) (a : α) (v : β) :
    keysOf (setk m a v) = (keysOf m).filter (fun k => !(decide (k = a))) ++ [a] := by
  rw [setk, keysOf, List.map_append, ← keysOf, keysOf_filter]
  rfl

theorem getk2_upd2_self {α β γ : Type} [DecidableEq α] [DecidableEq β]
    (t : List (α × List (β × γ))) (a : α) (b : β) (v : γ) :
    getk2 (upd2 t a b v) a b = some v := by
  simp [getk2, upd2, getk_setk_self]

theorem getk2_upd2_ne {α β γ : Type} [DecidableEq α] [DecidableEq β]
    (t : List (α × List (β × γ))) (a a2 : α) (b b2 : β) (v : γ) (h : a2 ≠ a) :
    getk2 (upd2 t a b v) a2 b2 = getk2 t a2 b2 := by
  simp [getk2, upd2, getk_setk_ne _ _ _ _ h]

/-- Discriminator for a Python call having returned normally. -/
def pyOk {α : Type} : Except PyErr α → Bool
  | .ok _ => true
  | .error _ => false

/-- Claim C1 (code_bug): the spec says `avg_bp_from_range` returns
`a + floor((b-a)/2)` for a range label "a-b" and the label parsed as an
integer otherwise — 7 for "5-9", 12 for "12".  The code's final statement is
`return(int(avg_len))` (line 611) and `avg_len` is never assigned anywhere in
the file, so the function raises `NameError` on every input instead of
returning; in particular it returns neither 7 for "5-9" nor 12 for "12". -/
theorem C1_avg_bp_from_range_raises :
    avg_bp_from_range "5-9" = .error (.nameError "avg_len")
    ∧ avg_bp_from_range "12" = .error (.nameError "avg_len")
    ∧ ∀ bp : String, pyOk (avg_bp_from_range bp) = false := by
  refine ⟨by decide, by decide, ?_⟩
  intro bp
  unfold avg_bp_from_range
  repeat' split
  all_goals rfl

/-- Claim C2 counterexample: the claim says that for every input text and
every single malformed data line in it the parse completes and produces a
record.  For this three-line report (a per-sequence-quality section holding
one malformed data line) `parse_fastqc_report` raises instead of completing —
the section header line itself already aborts the whole parse with
`ValueError` (line 275 applies `float()` to the captured status token), so no
record is stored. -/
theorem C2_counterexample :
    parse_fastqc_report id
        ">>Per sequence quality scores\tpass\nnot a number\n>>END_MODULE"
        "sampleA" emptyModuleSt
      = .error (.valueError "pass") := by decide

/-- Claim C2 (amended): per-line extraction failures are skipped only in the
four regex-guarded section handlers (quality-by-position, per-base
composition, GC content, length distribution): a line failing the section's
regex leaves the tables, the scalars and the adapter names untouched and
raises nothing.  The parse as a whole is not abort-free: any recognised
section header aborts it (`float()` on the status token, line 275), and a
malformed line in the `split()`-based handlers (per-sequence quality,
N content, duplication levels, adapter content) raises
IndexError/ValueError, so an aborted parse stores no record. -/
theorem C2_guarded_handlers_skip (d : DataTables) (s : Stats) (ats : List String)
    (l : String)
    (hq : searchRow isDigDash isDigDot 6 l = none)
    (hc : searchRow isDigDash isDigDot 4 l = none)
    (hg : searchRow isDigitC isDigDotE 1 l = none)
    (hl : searchRow isDigDash isDigDotE 1 l = none) :
    moduleStep .sequence_quality d s ats l = .ok (d, s, ats)
    ∧ moduleStep .sequence_content d s ats l = .ok (d, s, ats)
    ∧ moduleStep .gc_content d s ats l = .ok (d, s, ats)
    ∧ moduleStep .seq_length_dist d s ats l = .ok (d, s, ats) := by
  refine ⟨?_, ?_, ?_, ?_⟩ <;> simp [moduleStep, hq, hc, hg, hl]

theorem C2_witness :
    moduleStep .sequence_quality emptyTables defaultStats [] "abc def"
        = .ok (emptyTables, defaultStats, [])
    ∧ moduleStep .sequence_content emptyTables defaultStats [] "abc def"
        = .ok (emptyTables, defaultStats, [])
    ∧ moduleStep .gc_content emptyTables defaultStats [] "abc def"
        = .ok (emptyTables, defaultStats, [])
    ∧ moduleStep .seq_length_dist emptyTables defaultStats [] "abc def"
        = .ok (emptyTables, defaultStats, []) :=
  C2_guarded_handlers_skip emptyTables defaultStats [] "abc def"
    (by decide) (by decide) (by decide) (by decide)

/-- Claim C3 (code_bug): the claim says the status token captured from a
section header is stored unchanged (one of pass/warn/fail).  Line 275
actually executes `s['statuses'][k] = float(r_search.group(1))`, and
`float()` on any of the three possible tokens raises `ValueError`, aborting
the parse; nothing is ever stored.  The header regex itself does capture the
token (last conjunct). -/
theorem C3_status_token_store_raises :
    pyFloat "pass" = .error (.valueError "pass")
    ∧ pyFloat "warn" = .error (.valueError "warn")
    ∧ pyFloat "fail" = .error (.valueError "fail")
    ∧ lineStep initParseSt ">>Per base sequence quality\tpass"
        = .error (.valueError "pass")
    ∧ headerSearch section_headings ">>Per base sequence quality\tpass"
        = some (.sequence_quality, "pass") := by decide

/-- The accumulator state the claim's example rows (10,100) and (20,50) would
produce: `bp_sum = 10*100 + 20*50 = 2000`, `count_sum = 100 + 50 = 150`. -/
def statsAccClaim : Stats :=
  { defaultStats with seq_len_bp := qOfNat 2000, seq_len_read_count := qOfNat 150 }

/-- `statsAccClaim` after the average post-pass: `2000/150 = 40/3`. -/
def statsAvgClaim : Stats :=
  { statsAccClaim with avg_sequence_length := some (mkRat 40 3) }

/-- Claim C4 (code_bug): the claim says a non-empty length-distribution table
yields `avg_sequence_length = bp_sum / count_sum` (40/3 for rows (10,100) and
(20,50)), absent when the count sum is 0.  The post-pass of lines 277-279
(`lengthPostPass`) does implement exactly that formula (third and fourth
conjuncts), but no row can ever be accumulated: each matching data row calls
`avg_bp_from_range`, which raises `NameError` on the unbound `avg_len`
(line 611), aborting the parse — shown here on the claim's own rows. -/
theorem C4_length_dist_rows_raise :
    moduleStep .seq_length_dist emptyTables defaultStats [] "10\t100"
        = .error (.nameError "avg_len")
    ∧ moduleStep .seq_length_dist emptyTables defaultStats [] "20\t50"
        = .error (.nameError "avg_len")
    ∧ lengthPostPass statsAccClaim = statsAvgClaim
    ∧ lengthPostPass defaultStats = defaultStats := by decide

/-- Claim C5 (code_bug): the claim says a literal `NaN` in a per-base
composition line is treated as `0.0` and the line recorded.  Line 226 calls
`l.replace('NaN','0')` but discards the result (Python strings are
immutable), so the regex of line 227 runs on the original line, fails to
match, and the line is silently dropped (first and fourth conjuncts); the
replaced line would have matched (second and third conjuncts). -/
theorem C5_nan_line_dropped :
    moduleStep .sequence_content emptyTables defaultStats [] "10\t1.0\tNaN\t2.0\t3.0"
        = .ok (emptyTables, defaultStats, [])
    ∧ pyReplace "10\t1.0\tNaN\t2.0\t3.0" "NaN" "0" = "10\t1.0\t0\t2.0\t3.0"
    ∧ searchRow isDigDash isDigDot 4 "10\t1.0\t0\t2.0\t3.0"
        = some ("10", ["1.0", "0", "2.0", "3.0"])
    ∧ searchRow isDigDash isDigDot 4 "10\t1.0\tNaN\t2.0\t3.0" = none := by decide

/-- Claim C6 counterexample: the claim says empty input signals an
`EmptyReport` failure and no record is added.  The code has no such check:
parsing the empty string completes normally and stores an (empty) record
under the caller-supplied sample name. -/
theorem C6_counterexample :
    parse_fastqc_report id "" "sampleA" emptyModuleSt
      = .ok ⟨[("sampleA", emptyTables)], [("sampleA", defaultStats)], []⟩ := by decide

/-- Claim C6 (amended): empty input is not special-cased anywhere in
`parse_fastqc_report`: for every collection state, caller name and
`clean_s_name` function, parsing the empty string succeeds, storing the
default (all-absent) scalar record and the empty data tables under the
caller-supplied name; no per-report emptiness failure exists (the only
emptiness handling in the module is `__init__` raising `UserWarning` when no
reports at all were found, lines 60-62). -/
theorem C6_empty_input_stores_record (clean : String → String) (n : String) (m : ModuleSt) :
    ∃ m2, parse_fastqc_report clean "" n m = .ok m2
      ∧ getk m2.fastqc_stats n = some defaultStats
      ∧ getk m2.fastqc_data n = some emptyTables :=
  ⟨_, rfl, getk_setk_self _ _ _, getk_setk_self _ _ _⟩

/-- Claim C7 (confirmed): whenever two reports both parse successfully and
resolve to the same sample name, ingesting them in order succeeds, leaves
exactly one entry under that name in each map, that entry holds the second
report's data and stats (last write wins), the duplicate-name diagnostic of
line 288 is emitted exactly once by the second ingestion, and no existing
entry is deleted. -/
theorem C7_duplicate_name_last_write_wins
    (clean : String → String) (c1 c2 n1 n2 nm : String) (m : ModuleSt)
    (d1 d2 : DataTables) (s1 s2 : Stats)
    (h1 : parseLines clean c1 n1 = .ok (d1, s1, nm))
    (h2 : parseLines clean c2 n2 = .ok (d2, s2, nm)) :
    ∃ m1 m2,
      parse_fastqc_report clean c1 n1 m = .ok m1
      ∧ parse_fastqc_report clean c2 n2 m1 = .ok m2
      ∧ getk m2.fastqc_data nm = some d2
      ∧ getk m2.fastqc_stats nm = some s2
      ∧ countKey m2.fastqc_data nm = 1
      ∧ countKey m2.fastqc_stats nm = 1
      ∧ m2.logMsgs = m1.logMsgs ++ ["Duplicate sample name found! Overwriting: " ++ nm]
      ∧ (∀ k, (getk m.fastqc_data k).isSome = true → (getk m2.fastqc_data k).isSome = true)
      ∧ (∀ k, (getk m.fastqc_stats k).isSome = true →
          (getk m2.fastqc_stats k).isSome = true) := by
  refine ⟨⟨setk m.fastqc_data nm d1, setk m.fastqc_stats nm s1,
      if (getk m.fastqc_stats nm).isSome then
        m.logMsgs ++ ["Duplicate sample name found! Overwriting: " ++ nm]
      else m.logMsgs⟩,
    ⟨setk (setk m.fastqc_data nm d1) nm d2, setk (setk m.fastqc_stats nm s1) nm s2,
      (if (getk m.fastqc_stats nm).isSome then
        m.logMsgs ++ ["Duplicate sample name found! Overwriting: " ++ nm]
      else m.logMsgs) ++ ["Duplicate sample name found! Overwriting: " ++ nm]⟩,
    ?_, ?_, ?_, ?_, ?_, ?_, ?_, ?_, ?_⟩
  · unfold parse_fastqc_report
    rw [h1]
  · unfold parse_fastqc_report
    rw [h2]
    have hdup : (getk (setk m.fastqc_stats nm s1) nm).isSome = true := by
      rw [getk_setk_self]; rfl
    simp [getk_setk_self]
  · exact getk_setk_self _ _ _
  · exact getk_setk_self _ _ _
  · exact countKey_setk_self _ _ _
  · exact countKey_setk_self _ _ _
  · rfl
  · intro k hk
    exact getk_setk_isSome _ _ _ _ (getk_setk_isSome _ _ _ _ hk)
  · intro k hk
    exact getk_setk_isSome _ _ _ _ (getk_setk_isSome _ _ _ _ hk)

/-- The scalar record parsed from the one-line report "Total Sequences\t5". -/
def statsTotal5 : Stats := { defaultStats with total_sequences := some (qOfNat 5) }

/-- The scalar record parsed from the one-line report "Total Sequences\t9". -/
def statsTotal9 : Stats := { defaultStats with total_sequences := some (qOfNat 9) }

theorem C7_witness :
    ∃ m1 m2,
      parse_fastqc_report id "Total Sequences\t5" "sampleA" emptyModuleSt = .ok m1
      ∧ parse_fastqc_report id "Total Sequences\t9" "sampleA" m1 = .ok m2
      ∧ getk m2.fastqc_data "sampleA" = some emptyTables
      ∧ getk m2.fastqc_stats "sampleA" = some statsTotal9
      ∧ countKey m2.fastqc_data "sampleA" = 1
      ∧ countKey m2.fastqc_stats "sampleA" = 1
      ∧ m2.logMsgs = m1.logMsgs ++ ["Duplicate sample name found! Overwriting: " ++ "sampleA"]
      ∧ (∀ k, (getk emptyModuleSt.fastqc_data k).isSome = true →
          (getk m2.fastqc_data k).isSome = true)
      ∧ (∀ k, (getk emptyModuleSt.fastqc_stats k).isSome = true →
          (getk m2.fastqc_stats k).isSome = true) :=
  C7_duplicate_name_last_write_wins id "Total Sequences\t5" "Total Sequences\t9"
    "sampleA" "sampleA" "sampleA" emptyModuleSt emptyTables emptyTables
    statsTotal5 statsTotal9 (by decide) (by decide)

/-- Claim C9 (confirmed): while a section is active (`in_module` set), the
section-heading regexes are never consulted — every line other than the exact
end marker is handed to the active section's data handler, so any successful
step keeps `in_module` unchanged (no new section can start), and the exact
line ">>END_MODULE" clears it. -/
theorem C9_headers_not_tested_while_active
    (st : ParseSt) (k : FqcModule) (l : String) (st2 st3 : ParseSt)
    (hm : st.in_module = some k) (hl : l ≠ ">>END_MODULE")
    (hstep : lineStep st l = .ok st2)
    (hend : lineStep st ">>END_MODULE" = .ok st3) :
    st2.in_module = some k ∧ st3.in_module = none := by
  constructor
  · cases he : statsPass st.s l with
    | error e =>
      simp only [lineStep, he] at hstep
      exact Except.noConfusion hstep
    | ok s1 =>
      simp only [lineStep, he, hm, if_neg hl] at hstep
      cases hms : moduleStep k st.d s1 st.adapter_types l with
      | error e =>
        simp only [hms] at hstep
        exact Except.noConfusion hstep
      | ok tri =>
        obtain ⟨d2, s2, at2⟩ := tri
        simp only [hms, Except.ok.injEq] at hstep
        rw [← hstep]
  · have hs : statsPass st.s ">>END_MODULE" = .ok st.s := rfl
    simp only [lineStep, hs, hm, if_pos] at hend
    simp only [Except.ok.injEq] at hend
    rw [← hend]

/-- A parse state with the GC-content section active. -/
def gcActiveSt : ParseSt :=
  { d := emptyTables, s := defaultStats, adapter_types := [], in_module := some .gc_content }

theorem C9_witness :
    gcActiveSt.in_module = some FqcModule.gc_content ∧ initParseSt.in_module = none :=
  C9_headers_not_tested_while_active gcActiveSt .gc_content
    ">>Per base sequence quality\tpass" gcActiveSt initParseSt rfl (by decide)
    (by decide) (by decide)

/-- Claim C10 (confirmed): a completed `parse_fastqc_report` writes both
collection maps under the same resolved name (lines 290-292), so if
`fastqc_data` and `fastqc_stats` have identical key lists before a successful
parse, they have identical key lists after it; hence after any sequence of
parses starting from the empty collection the two key sets coincide. -/
theorem C10_key_sets_match (clean : String → String) (c n : String) (m m2 : ModuleSt)
    (h : keysOf m.fastqc_data = keysOf m.fastqc_stats)
    (hp : parse_fastqc_report clean c n m = .ok m2) :
    keysOf m2.fastqc_data = keysOf m2.fastqc_stats := by
  cases hpl : parseLines clean c n with
  | error e =>
    simp only [parse_fastqc_report, hpl] at hp
    exact Except.noConfusion hp
  | ok tri =>
    obtain ⟨d, s, nm⟩ := tri
    simp only [parse_fastqc_report, hpl, Except.ok.injEq] at hp
    rw [← hp]
    show keysOf (setk m.fastqc_data nm d) = keysOf (setk m.fastqc_stats nm s)
    rw [keysOf_setk, keysOf_setk, h]

/-- The collection after parsing "Total Sequences\t5" into an empty
collection under the name "sampleA". -/
def moduleStA : ModuleSt :=
  ⟨[("sampleA", emptyTables)], [("sampleA", statsTotal5)], []⟩

theorem C10_witness : keysOf moduleStA.fastqc_data = keysOf moduleStA.fastqc_stats :=
  C10_key_sets_match id "Total Sequences\t5" "sampleA" emptyModuleSt moduleStA rfl
    (by decide)

theorem pyIndex_eq_getD {α : Type} (l : List α) (i : Nat) (dflt : α) (h : i < l.length) :
    pyIndex l i = .ok (l.getD i dflt) := by
  rw [pyIndex, dif_pos h, List.getD_eq_getElem _ _ h]
  rfl

/-- Invariant of the adapter store loop (lines 259-261): starting at column
index `idx`, when every value parses and the remaining adapter-type names
exist, the loop succeeds, touches no key other than the names it writes, and
leaves `(name_(idx+i), pos) ↦ q_i` readable whenever the written names are
pairwise distinct. -/
theorem adapterLoop_spec (types : List String) (pos : Int) (vs : List String) :
    ∀ (qs : List ℚ) (idx : Nat) (tab : List (String × List (Int × ℚ))),
      idx + vs.length ≤ types.length →
      qs.length = vs.length →
      (∀ i, i < vs.length → pyFloat (vs.getD i "") = .ok (qs.getD i (qOfNat 0))) →
      ∃ tab2, adapterLoop types pos idx tab vs = .ok tab2
        ∧ (∀ a b, (∀ j, j < vs.length → types.getD (idx + j) "" ≠ a) →
            getk2 tab2 a b = getk2 tab a b)
        ∧ (∀ i, i < vs.length →
            (∀ j, j < vs.length → i ≠ j →
              types.getD (idx + j) "" ≠ types.getD (idx + i) "") →
            getk2 tab2 (types.getD (idx + i) "") pos = some (qs.getD i (qOfNat 0))) := by
  induction vs with
  | nil =>
    intro qs idx tab _ _ _
    exact ⟨tab, rfl, fun a b _ => rfl, fun i hi _ => absurd hi (Nat.not_lt_zero i)⟩
  | cons v vs ih =>
    intro qs idx tab hlen hql hvals
    cases qs with
    | nil => simp at hql
    | cons q qs =>
      have hidx : idx < types.length := by
        simp only [List.length_cons] at hlen
        omega
      have hpy : pyIndex types idx = .ok (types.getD idx "") :=
        pyIndex_eq_getD types idx "" hidx
      have hv0 : pyFloat v = .ok q := by
        have h0 := hvals 0 (Nat.succ_pos _)
        simpa using h0
      obtain ⟨tab2, hrun, hpres, hlook⟩ :=
        ih qs (idx + 1) (upd2 tab (types.getD idx "") pos q)
          (by simp only [List.length_cons] at hlen; omega)
          (by simp only [List.length_cons] at hql; omega)
          (fun i hi => by
            have := hvals (i + 1) (by simp only [List.length_cons]; omega)
            simpa using this)
      refine ⟨tab2, ?_, ?_, ?_⟩
      · simp only [adapterLoop, hpy, hv0, hrun]
      · intro a b hne
        have hshift : ∀ j, j < vs.length → types.getD (idx + 1 + j) "" ≠ a := by
          intro j hj
          have hx := hne (j + 1) (by simp only [List.length_cons]; omega)
          have heq : idx + (j + 1) = idx + 1 + j := by omega
          rwa [heq] at hx
        rw [hpres a b hshift]
        refine getk2_upd2_ne tab (types.getD idx "") a pos b q (Ne.symm ?_)
        have hx := hne 0 (Nat.succ_pos _)
        simpa using hx
      · intro i hi hd
        cases i with
        | zero =>
          have hshift : ∀ j, j < vs.length →
              types.getD (idx + 1 + j) "" ≠ types.getD (idx + 0) "" := by
            intro j hj
            have hx := hd (j + 1) (by simp only [List.length_cons]; omega) (by omega)
            have heq : idx + (j + 1) = idx + 1 + j := by omega
            rwa [heq] at hx
          rw [hpres _ _ hshift]
          simp only [Nat.add_zero, List.getD_cons_zero]
          exact getk2_upd2_self tab (types.getD idx "") pos q
        | succ i =>
          have hd2 : ∀ j, j < vs.length → i ≠ j →
              types.getD (idx + 1 + j) "" ≠ types.getD (idx + 1 + i) "" := by
            intro j hj hne2
            have hx := hd (j + 1) (by simp only [List.length_cons]; omega) (by omega)
            have heq1 : idx + (j + 1) = idx + 1 + j := by omega
            have heq2 : idx + (i + 1) = idx + 1 + i := by omega
            rwa [heq1, heq2] at hx
          have hx := hlook i (by simp only [List.length_cons] at hi; omega) hd2
          have heq2 : idx + 1 + i = idx + (i + 1) := by omega
          rw [heq2] at hx
          simpa using hx

/-- Claim C8 (confirmed): in the adapter-content section, once the `#` header
line has supplied the ordered adapter-type names, a tab-separated data row
with first column `P` and parseable values `v1..vn` (with at most as many
values as names, and the written names pairwise distinct, as in any real
header) stores the entry `(type_i, pos) ↦ v_i` for every column `i`, where
`pos` is `int(P.split('-', 1)[0])` — the integer before any `-` in `P`
(lines 253-261). -/
theorem C8_adapter_row
    (types : List String) (d : DataTables) (s : Stats) (l c0 : String)
    (vs : List String) (pos : Int) (qs : List ℚ)
    (hhash : l.data.take 1 ≠ ['#'])
    (hsplit : splitOnCharS '\t' l = c0 :: vs)
    (hpos : pyIntStr (pySplit1Fst c0 '-') = .ok pos)
    (hlen : vs.length ≤ types.length)
    (hqlen : qs.length = vs.length)
    (hvals : ∀ i, i < vs.length → pyFloat (vs.getD i "") = .ok (qs.getD i (qOfNat 0)))
    (hdist : ∀ i, i < vs.length → ∀ j, j < vs.length → i ≠ j →
        types.getD i "" ≠ types.getD j "") :
    ∃ tab, moduleStep .adapter_content d s types l
        = .ok ({d with adapter_content := tab}, s, types)
      ∧ ∀ i, i < vs.length →
          getk2 tab (types.getD i "") pos = some (qs.getD i (qOfNat 0)) := by
  obtain ⟨tab2, hrun, _hpres, hlook⟩ :=
    adapterLoop_spec types pos vs qs 0 d.adapter_content (by omega) hqlen hvals
  refine ⟨tab2, ?_, ?_⟩
  · simp only [moduleStep, if_neg hhash, hsplit, hpos, hrun]
  · intro i hi
    have hx := hlook i hi (fun j hj hij => by
      have := hdist j hj i hi (Ne.symm hij)
      simpa using this)
    simpa using hx

theorem C8_witness :
    ∃ tab, moduleStep .adapter_content emptyTables defaultStats
          ["Illumina", "Nextera"] "1-5\t0.1\t0.0"
        = .ok ({emptyTables with adapter_content := tab}, defaultStats,
               ["Illumina", "Nextera"])
      ∧ ∀ i, i < (["0.1", "0.0"] : List String).length →
          getk2 tab ((["Illumina", "Nextera"] : List String).getD i "") 1
            = some (([mkRat 1 10, qOfNat 0] : List ℚ).getD i (qOfNat 0)) :=
  C8_adapter_row ["Illumina", "Nextera"] emptyTables defaultStats "1-5\t0.1\t0.0" "1-5"
    ["0.1", "0.0"] 1 [mkRat 1 10, qOfNat 0] (by decide) (by decide) (by decide)
    (by decide) (by decide) (by decide) (by decide)
